import Mathlib

/-!
Verification of the alif-cli resolution-and-staging pipeline.

The Go sources are shallowly embedded: Go strings are modelled as lists of
characters (`Str`), line-oriented file contents as lists of lines, the
filesystem touched by a function as explicit data threaded through it, and
each external subprocess outcome as a boolean input.  Every definition is
translated from the corresponding Go function; the two functions that are
declared only outside the provided sources (the device-identity probe and
the build-state reader) are modelled from the specification and marked as
such in their doc comments.
-/

/-- Go strings, modelled as lists of characters. -/
abbrev Str := List Char

/-- Converts a Lean string literal to the character-list model. -/
def strL (s : String) : Str := s.data

/-- Whitespace test matching Go's unicode.IsSpace on the ASCII range. -/
def goIsSpace (c : Char) : Bool :=
  c = ' ' || c = '\t' || c = '\n' || c = '\x0b' || c = '\x0c' || c = '\r'

/-- Splits a string at every character satisfying p, keeping empty groups,
mirroring Go's strings.Split / strings.FieldsFunc splitting discipline. -/
def splitBy (p : Char → Bool) : Str → List Str
  | [] => [[]]
  | c :: rest =>
    if p c then [] :: splitBy p rest
    else (c :: (splitBy p rest).headD []) :: (splitBy p rest).tail

/-- Go's strings.Split with a one-character separator. -/
def splitChar (sep : Char) (s : Str) : List Str :=
  splitBy (fun c => c = sep) s

/-- Joins groups with a separator character: the inverse of splitChar and the
model of Go's strings.Join with a one-character separator. -/
def joinChar (sep : Char) : List Str → Str
  | [] => []
  | [l] => l
  | l :: l' :: rest => l ++ sep :: joinChar sep (l' :: rest)

/-- Go's strings.HasPrefix: the first argument is the candidate prefix. -/
def isPrefixL : Str → Str → Bool
  | [], _ => true
  | _ :: _, [] => false
  | a :: as, b :: bs => a = b && isPrefixL as bs

/-- Go's strings.Contains: containsSub hay needle. -/
def containsSub : Str → Str → Bool
  | [], needle => needle.isEmpty
  | c :: t, needle => isPrefixL needle (c :: t) || containsSub t needle

/-- Go's strings.ToLower, restricted to the character-wise case map. -/
def toLowerGo (s : Str) : Str := s.map Char.toLower

/-- Go's strings.TrimSpace. -/
def trimGo (s : Str) : Str :=
  ((s.dropWhile goIsSpace).reverse.dropWhile goIsSpace).reverse

/-- Go's strings.Fields: whitespace-delimited fields, no empties. -/
def fieldsGo (s : Str) : List Str :=
  (splitBy goIsSpace s).filter (fun l => !l.isEmpty)

/-- Go's filepath.Base for the slash-separated paths the tool manipulates. -/
def baseNameGo (s : Str) : Str := (splitChar '/' s).getLastD s

theorem splitBy_ne_nil (p : Char → Bool) (s : Str) : splitBy p s ≠ [] := by
  cases s with
  | nil => simp [splitBy]
  | cons c rest =>
    simp only [splitBy]
    split <;> simp

theorem mem_splitBy_no_sep (p : Char → Bool) (s : Str) :
    ∀ l ∈ splitBy p s, ∀ c ∈ l, p c = false := by
  induction s with
  | nil =>
    intro l hl c hc
    simp [splitBy] at hl
    subst hl
    simp at hc
  | cons a rest ih =>
    intro l hl c hc
    simp only [splitBy] at hl
    by_cases hpa : p a
    · rw [if_pos hpa, List.mem_cons] at hl
      rcases hl with h | h
      · subst h; simp at hc
      · exact ih l h c hc
    · rw [if_neg hpa] at hl
      simp only [Bool.not_eq_true] at hpa
      rcases hr : splitBy p rest with _ | ⟨g, gs⟩
      · exact absurd hr (splitBy_ne_nil p rest)
      · rw [hr] at hl
        simp only [List.headD_cons, List.tail_cons] at hl
        rw [List.mem_cons] at hl
        rcases hl with h | h
        · subst h
          rw [List.mem_cons] at hc
          rcases hc with hc | hc
          · subst hc; exact hpa
          · exact ih g (by rw [hr]; exact List.mem_cons_self g gs) c hc
        · exact ih l (by rw [hr]; exact List.mem_cons_of_mem g h) c hc

theorem splitBy_of_no_sep (p : Char → Bool) (s : Str)
    (h : ∀ c ∈ s, p c = false) : splitBy p s = [s] := by
  induction s with
  | nil => simp [splitBy]
  | cons a rest ih =>
    have hpa : p a = false := h a (List.mem_cons_self a rest)
    have hrest : splitBy p rest = [rest] :=
      ih (fun c hc => h c (List.mem_cons_of_mem a hc))
    simp [splitBy, hpa, hrest]

theorem splitBy_append_sep (p : Char → Bool) (l t : Str) (sep : Char)
    (hsep : p sep = true) (h : ∀ c ∈ l, p c = false) :
    splitBy p (l ++ sep :: t) = l :: splitBy p t := by
  induction l with
  | nil => simp [splitBy, hsep]
  | cons a l' ih =>
    have hpa : p a = false := h a (List.mem_cons_self a l')
    have hrec : splitBy p (l' ++ sep :: t) = l' :: splitBy p t :=
      ih (fun c hc => h c (List.mem_cons_of_mem a hc))
    simp [splitBy, hpa, hrec]

theorem splitBy_joinChar (p : Char → Bool) (sep : Char) (hsep : p sep = true)
    (ls : List Str) (hne : ls ≠ [])
    (hall : ∀ l ∈ ls, ∀ c ∈ l, p c = false) :
    splitBy p (joinChar sep ls) = ls := by
  induction ls with
  | nil => exact absurd rfl hne
  | cons l rest ih =>
    cases rest with
    | nil =>
      simp only [joinChar]
      exact splitBy_of_no_sep p l (hall l (List.mem_cons_self l []))
    | cons l2 rest2 =>
      have hjoin : joinChar sep (l :: l2 :: rest2) =
          l ++ sep :: joinChar sep (l2 :: rest2) := rfl
      rw [hjoin, splitBy_append_sep p l _ sep hsep
        (hall l (List.mem_cons_self l _))]
      rw [ih (by simp) (fun g hg c hc => hall g (List.mem_cons_of_mem l hg) c hc)]

theorem splitChar_joinChar (sep : Char) (ls : List Str) (hne : ls ≠ [])
    (hall : ∀ l ∈ ls, sep ∉ l) : splitChar sep (joinChar sep ls) = ls := by
  refine splitBy_joinChar _ sep (by simp) ls hne ?_
  intro l hl c hc
  simp only [decide_eq_false_iff_not]
  intro hcs
  exact hall l hl (hcs ▸ hc)

theorem isPrefixL_append (a b : Str) : isPrefixL a (a ++ b) = true := by
  induction a with
  | nil => simp [isPrefixL]
  | cons c t ih => simp [isPrefixL, ih]

theorem containsSub_nil_right (hay : Str) : containsSub hay [] = true := by
  cases hay <;> simp [containsSub, isPrefixL]

theorem containsSub_append_mid (a b c : Str) :
    containsSub (a ++ b ++ c) b = true := by
  induction a with
  | nil =>
    cases b with
    | nil => simp [containsSub_nil_right]
    | cons x t =>
      have h := isPrefixL_append (x :: t) c
      simp only [List.nil_append]
      rw [List.cons_append] at h ⊢
      simp [containsSub, h]
  | cons x t ih =>
    have hsplit : (x :: t) ++ b ++ c = x :: (t ++ b ++ c) := by simp
    rw [hsplit]
    show (isPrefixL b (x :: (t ++ b ++ c)) || containsSub (t ++ b ++ c) b) = true
    rw [ih]
    simp

/-! ### Flasher: map-file address resolution (internal/flasher, part_007) -/

/-- Line scan of Flasher.resolveBinaryAddress: the first line that contains
"alif-img.bin" and has more than one whitespace-delimited field yields its
first field; other lines are skipped.  The file is modelled as its list of
lines, as read by the bufio line scanner. -/
def resolveBinaryAddressLines : List Str → Option Str
  | [] => none
  | line :: rest =>
    if containsSub line (strL "alif-img.bin") = true ∧ 1 < (fieldsGo line).length
    then some ((fieldsGo line).headD [])
    else resolveBinaryAddressLines rest

/-- Line scan of Flasher.resolveTOCAddress: the first line containing the
marker "APP Package Start Address:" whose colon-split has a second part with
non-empty trimmed text yields that trimmed text; other lines are skipped. -/
def resolveTOCAddressLines : List Str → Option Str
  | [] => none
  | line :: rest =>
    if containsSub line (strL "APP Package Start Address:") = true then
      if 1 < (splitChar ':' line).length then
        if trimGo ((splitChar ':' line).getD 1 []) ≠ []
        then some (trimGo ((splitChar ':' line).getD 1 []))
        else resolveTOCAddressLines rest
      else resolveTOCAddressLines rest
    else resolveTOCAddressLines rest

/-- A line that makes resolveBinaryAddress return. -/
def binAddrLineOk (line : Str) : Prop :=
  containsSub line (strL "alif-img.bin") = true ∧ 1 < (fieldsGo line).length

instance (line : Str) : Decidable (binAddrLineOk line) := by
  unfold binAddrLineOk; infer_instance

/-- A line that makes resolveTOCAddress return. -/
def tocAddrLineOk (line : Str) : Prop :=
  containsSub line (strL "APP Package Start Address:") = true
  ∧ 1 < (splitChar ':' line).length
  ∧ trimGo ((splitChar ':' line).getD 1 []) ≠ []

instance (line : Str) : Decidable (tocAddrLineOk line) := by
  unfold tocAddrLineOk; infer_instance

theorem resolveBinaryAddressLines_skip (line : Str) (rest : List Str)
    (h : ¬ binAddrLineOk line) :
    resolveBinaryAddressLines (line :: rest) = resolveBinaryAddressLines rest := by
  simp only [resolveBinaryAddressLines]
  exact if_neg h

theorem resolveBinaryAddressLines_hit (line : Str) (rest : List Str)
    (h : binAddrLineOk line) :
    resolveBinaryAddressLines (line :: rest) = some ((fieldsGo line).headD []) := by
  simp only [resolveBinaryAddressLines]
  exact if_pos h

theorem resolveTOCAddressLines_skip (line : Str) (rest : List Str)
    (h : ¬ tocAddrLineOk line) :
    resolveTOCAddressLines (line :: rest) = resolveTOCAddressLines rest := by
  simp only [resolveTOCAddressLines]
  by_cases h1 : containsSub line (strL "APP Package Start Address:") = true
  · rw [if_pos h1]
    by_cases h2 : 1 < (splitChar ':' line).length
    · rw [if_pos h2]
      by_cases h3 : trimGo ((splitChar ':' line).getD 1 []) ≠ []
      · exact absurd ⟨h1, h2, h3⟩ h
      · exact if_neg h3
    · exact if_neg h2
  · exact if_neg h1

theorem resolveTOCAddressLines_hit (line : Str) (rest : List Str)
    (h : tocAddrLineOk line) :
    resolveTOCAddressLines (line :: rest)
      = some (trimGo ((splitChar ':' line).getD 1 [])) := by
  simp only [resolveTOCAddressLines]
  rw [if_pos h.1, if_pos h.2.1, if_pos h.2.2]

theorem resolveBinaryAddressLines_first (pre : List Str) (line : Str)
    (post : List Str) (hpre : ∀ l ∈ pre, ¬ binAddrLineOk l)
    (h : binAddrLineOk line) :
    resolveBinaryAddressLines (pre ++ line :: post)
      = some ((fieldsGo line).headD []) := by
  induction pre with
  | nil => exact resolveBinaryAddressLines_hit line post h
  | cons l pre' ih =>
    rw [List.cons_append,
      resolveBinaryAddressLines_skip l _ (hpre l (List.mem_cons_self l pre'))]
    exact ih (fun x hx => hpre x (List.mem_cons_of_mem l hx))

theorem resolveTOCAddressLines_first (pre : List Str) (line : Str)
    (post : List Str) (hpre : ∀ l ∈ pre, ¬ tocAddrLineOk l)
    (h : tocAddrLineOk line) :
    resolveTOCAddressLines (pre ++ line :: post)
      = some (trimGo ((splitChar ':' line).getD 1 [])) := by
  induction pre with
  | nil => exact resolveTOCAddressLines_hit line post h
  | cons l pre' ih =>
    rw [List.cons_append,
      resolveTOCAddressLines_skip l _ (hpre l (List.mem_cons_self l pre'))]
    exact ih (fun x hx => hpre x (List.mem_cons_of_mem l hx))

/-- C2: for a map file whose first line referencing alif-img.bin has the load
address as its first whitespace-delimited field, and whose first usable line
containing "APP Package Start Address:" has exactly one colon, address
resolution returns that first field as the binary load address and the
trimmed text after the colon as the TOC address. -/
theorem map_file_address_resolution
    (pre post pre2 post2 : List Str) (line mline a b : Str)
    (hpre : ∀ l ∈ pre, ¬ binAddrLineOk l)
    (hline : binAddrLineOk line)
    (hpre2 : ∀ l ∈ pre2, ¬ tocAddrLineOk l)
    (hm : containsSub mline (strL "APP Package Start Address:") = true)
    (hsplit : splitChar ':' mline = [a, b])
    (hb : trimGo b ≠ []) :
    resolveBinaryAddressLines (pre ++ line :: post)
      = some ((fieldsGo line).headD [])
    ∧ resolveTOCAddressLines (pre2 ++ mline :: post2) = some (trimGo b) := by
  constructor
  · exact resolveBinaryAddressLines_first pre line post hpre hline
  · have hok : tocAddrLineOk mline := by
      refine ⟨hm, ?_, ?_⟩
      · rw [hsplit]; simp
      · rw [hsplit]; simpa using hb
    have := resolveTOCAddressLines_first pre2 mline post2 hpre2 hok
    rw [this, hsplit]
    rfl

/-- Witness for C2 at the spec's own concrete map file. -/
theorem map_file_address_resolution_witness :
    resolveBinaryAddressLines
      [strL "0x80000000  alif-img.bin  ...",
       strL "APP Package Start Address: 0x8057f0f0"]
      = some (strL "0x80000000")
    ∧ resolveTOCAddressLines
      [strL "0x80000000  alif-img.bin  ...",
       strL "APP Package Start Address: 0x8057f0f0"]
      = some (strL "0x8057f0f0") := by
  have h := map_file_address_resolution
    [] [strL "APP Package Start Address: 0x8057f0f0"]
    [strL "0x80000000  alif-img.bin  ..."] []
    (strL "0x80000000  alif-img.bin  ...")
    (strL "APP Package Start Address: 0x8057f0f0")
    (strL "APP Package Start Address") (strL " 0x8057f0f0")
    (by decide) (by decide) (by decide) (by decide) (by decide) (by decide)
  constructor
  · exact h.1.trans (by decide)
  · exact h.2.trans (by decide)

/-! ### Flasher: ISP port configuration update (part_007, UpdateISPConfig) -/

/-- The new comport line written by UpdateISPConfig for a given port. -/
def comportLine (port : Str) : Str := strL "comport " ++ port

/-- A line counts as a comport line when its trimmed form starts with
"comport", exactly as in the Go loop. -/
def isComportLine (l : Str) : Bool := isPrefixL (strL "comport") (trimGo l)

/-- Replaces the first comport line of the file in place, or reports that no
line matched; mirrors the indexed loop with break in UpdateISPConfig. -/
def replaceComport (port : Str) : List Str → Option (List Str)
  | [] => none
  | l :: rest =>
    if isComportLine l
    then some (comportLine port :: rest)
    else (replaceComport port rest).map (fun ls => l :: ls)

/-- The line-level update of UpdateISPConfig: replace the first comport line,
or append one when the existing file has none. -/
def updateComportLines (lines : List Str) (port : Str) : List Str :=
  match replaceComport port lines with
  | some ls => ls
  | none => lines ++ [comportLine port]

/-- UpdateISPConfig modelled on the contents of isp_config_data.cfg: a missing
file (none) is created with the default contents, an existing file is split
into lines, updated, and re-joined with newlines. -/
def UpdateISPConfig (existing : Option Str) (port : Str) : Str :=
  match existing with
  | none => strL "comport " ++ port ++ strL "\nbaudrate 115200\n"
  | some content => joinChar '\n' (updateComportLines (splitChar '\n' content) port)

theorem comportLine_mem_updateComportLines (lines : List Str) (port : Str) :
    comportLine port ∈ updateComportLines lines port := by
  induction lines with
  | nil => simp [updateComportLines, replaceComport]
  | cons l rest ih =>
    simp only [updateComportLines, replaceComport]
    by_cases hc : isComportLine l
    · simp [hc]
    · simp only [hc, if_neg, Bool.false_eq_true]
      rcases hr : replaceComport port rest with _ | ls
      · simp [hr]
      · simp only [Option.map_some']
        simp only [updateComportLines, hr] at ih
        exact List.mem_cons_of_mem l ih

theorem mem_replaceComport (port : Str) (lines ls : List Str)
    (h : replaceComport port lines = some ls) :
    ∀ x ∈ ls, x ∈ lines ∨ x = comportLine port := by
  induction lines generalizing ls with
  | nil => simp [replaceComport] at h
  | cons l rest ih =>
    simp only [replaceComport] at h
    by_cases hc : isComportLine l
    · rw [if_pos hc] at h
      cases h
      intro x hx
      rw [List.mem_cons] at hx
      rcases hx with hx | hx
      · right; exact hx
      · left; exact List.mem_cons_of_mem l hx
    · rw [if_neg hc] at h
      rcases hr : replaceComport port rest with _ | ls'
      · rw [hr] at h; simp at h
      · rw [hr] at h
        simp only [Option.map_some', Option.some.injEq] at h
        subst h
        intro x hx
        rw [List.mem_cons] at hx
        rcases hx with hx | hx
        · left; rw [hx]; exact List.mem_cons_self l rest
        · rcases ih ls' hr x hx with h' | h'
          · left; exact List.mem_cons_of_mem l h'
          · right; exact h'

theorem mem_updateComportLines (lines : List Str) (port : Str) :
    ∀ x ∈ updateComportLines lines port, x ∈ lines ∨ x = comportLine port := by
  simp only [updateComportLines]
  rcases hr : replaceComport port lines with _ | ls
  · intro x hx
    rw [List.mem_append] at hx
    rcases hx with hx | hx
    · left; exact hx
    · right; simpa using hx
  · exact mem_replaceComport port lines ls hr

theorem updateComportLines_ne_nil (lines : List Str) (port : Str) :
    updateComportLines lines port ≠ [] := by
  intro h
  have := comportLine_mem_updateComportLines lines port
  rw [h] at this
  simp at this

theorem replaceComport_none (port : Str) (lines : List Str)
    (h : ∀ x ∈ lines, isComportLine x = false) :
    replaceComport port lines = none := by
  induction lines with
  | nil => rfl
  | cons l rest ih =>
    have hl : isComportLine l = false := h l (List.mem_cons_self l rest)
    simp only [replaceComport, hl, Bool.false_eq_true, if_false]
    rw [ih (fun x hx => h x (List.mem_cons_of_mem l hx))]
    rfl

theorem replaceComport_first (port : Str) (pre : List Str) (l : Str)
    (suf : List Str) (hpre : ∀ x ∈ pre, isComportLine x = false)
    (hl : isComportLine l = true) :
    replaceComport port (pre ++ l :: suf)
      = some (pre ++ comportLine port :: suf) := by
  induction pre with
  | nil => simp [replaceComport, hl]
  | cons x pre' ih =>
    have hx : isComportLine x = false := hpre x (List.mem_cons_self x pre')
    simp only [List.cons_append, replaceComport, hx, Bool.false_eq_true, if_false,
      List.append_eq]
    rw [ih (fun y hy => hpre y (List.mem_cons_of_mem x hy))]
    rfl

/-- C10: a successful UpdateISPConfig leaves isp_config_data.cfg containing
the line "comport <port>": the first existing comport line is replaced in
place, a comport line is appended when the existing file has none, and a
missing file is created with default contents that include that line. -/
theorem UpdateISPConfig_comport (port : Str) (hp : '\n' ∉ port) :
    comportLine port ∈ splitChar '\n' (UpdateISPConfig none port)
    ∧ (∀ content,
        comportLine port ∈ splitChar '\n' (UpdateISPConfig (some content) port))
    ∧ (∀ pre l suf, (∀ x ∈ pre, isComportLine x = false) →
        isComportLine l = true →
        updateComportLines (pre ++ l :: suf) port
          = pre ++ comportLine port :: suf)
    ∧ (∀ lines, (∀ x ∈ lines, isComportLine x = false) →
        updateComportLines lines port = lines ++ [comportLine port]) := by
  have hnlc : '\n' ∉ comportLine port := by
    simp only [comportLine, List.mem_append]
    rintro (h | h)
    · revert h; decide
    · exact hp h
  refine ⟨?_, ?_, ?_, ?_⟩
  · have hlit : strL "\nbaudrate 115200\n"
        = '\n' :: (strL "baudrate 115200" ++ ['\n']) := by decide
    have hjoin : UpdateISPConfig none port
        = joinChar '\n' [comportLine port, strL "baudrate 115200", []] := by
      show strL "comport " ++ port ++ strL "\nbaudrate 115200\n" = _
      rw [hlit]
      simp [joinChar, comportLine, List.append_assoc]
    rw [hjoin, splitChar_joinChar '\n' _ (by simp) ?_]
    · exact List.mem_cons_self _ _
    · intro l hl
      rw [List.mem_cons] at hl
      rcases hl with h | h
      · rw [h]; exact hnlc
      · rw [List.mem_cons] at h
        rcases h with h | h
        · rw [h]; decide
        · simp at h
          rw [h]; simp
  · intro content
    have hnosep : ∀ x ∈ splitChar '\n' content, '\n' ∉ x := by
      intro x hx hmem
      have hfalse := mem_splitBy_no_sep (fun c => c = '\n') content x hx '\n' hmem
      simp at hfalse
    have hall : ∀ x ∈ updateComportLines (splitChar '\n' content) port,
        '\n' ∉ x := by
      intro x hx
      rcases mem_updateComportLines (splitChar '\n' content) port x hx with h | h
      · exact hnosep x h
      · rw [h]; exact hnlc
    show comportLine port ∈ splitChar '\n'
      (joinChar '\n' (updateComportLines (splitChar '\n' content) port))
    rw [splitChar_joinChar '\n' _ (updateComportLines_ne_nil _ port) hall]
    exact comportLine_mem_updateComportLines _ port
  · intro pre l suf hpre hl
    simp only [updateComportLines, replaceComport_first port pre l suf hpre hl]
  · intro lines h
    simp only [updateComportLines, replaceComport_none port lines h]

/-- Witness for C10 at a concrete port and a concrete existing file. -/
theorem UpdateISPConfig_comport_witness :
    ('\n' ∉ strL "COM7")
    ∧ comportLine (strL "COM7") ∈ splitChar '\n'
        (UpdateISPConfig (some (strL "baudrate 115200\ncomport COM3")) (strL "COM7"))
    ∧ comportLine (strL "COM7") ∈ splitChar '\n'
        (UpdateISPConfig none (strL "COM7")) :=
  ⟨by decide,
   (UpdateISPConfig_comport (strL "COM7") (by decide)).2.1
     (strL "baudrate 115200\ncomport COM3"),
   (UpdateISPConfig_comport (strL "COM7") (by decide)).1⟩

/-! ### TargetConfigResolver (internal/targets, part_008) -/

/-- Decoded JSON values, as far as the target-config accessors inspect them:
strings, objects, and everything else. -/
inductive JVal where
  | str (s : Str)
  | obj (fields : List (Str × JVal))
  | other

/-- A decoded top-level target-config object (Go map[string]interface). -/
abbrev TargetConfig := List (Str × JVal)

/-- Key lookup in a decoded JSON object. -/
def lookupJ : List (Str × JVal) → Str → Option JVal
  | [], _ => none
  | (k, v) :: rest, key => if k = key then some v else lookupJ rest key

/-- Reads a string field of a sub-object, or nothing when the value is not an
object or the field is not a string: the Go double type assertion. -/
def objStrField (v : JVal) (key : Str) : Option Str :=
  match v with
  | .obj fs =>
    match lookupJ fs key with
    | some (.str s) => some s
    | _ => none
  | _ => none

/-- Shared accessor skeleton of GetCPU and GetMRAMAddress: prefer the
USER_APP sub-object, else scan all sub-objects for the field (the Go map
iteration is modelled in the field-list order), else empty. -/
def getFieldTC (tc : TargetConfig) (key : Str) : Str :=
  match (lookupJ tc (strL "USER_APP")).bind (fun v => objStrField v key) with
  | some s => s
  | none =>
    match tc.findSome? (fun p => objStrField p.2 key) with
    | some s => s
    | none => []

/-- TargetConfig.GetCPU. -/
def GetCPU (tc : TargetConfig) : Str := getFieldTC tc (strL "cpu_id")

/-- TargetConfig.GetMRAMAddress. -/
def GetMRAMAddress (tc : TargetConfig) : Str := getFieldTC tc (strL "mramAddress")

/-- Outcome of the auto-detect branch of ResolveTargetConfig: a single
resolved path, an interactive selection over several remaining candidates,
or the hard no-configuration error. -/
inductive Resolution where
  | resolved (path : Str)
  | ambiguous (cands : List Str)
  | notFound
deriving DecidableEq

/-- Candidate collection of ResolveTargetConfig: a scanned JSON file becomes a
candidate when its name is not excluded and it parses to a config exposing a
non-empty mramAddress or cpu_id.  The scan result (readable parse outcome per
file, in directory scan order) is the input. -/
def autoCandidates (files : List (Str × Option TargetConfig)) : List Str :=
  files.filterMap (fun fp =>
    if containsSub (baseNameGo fp.1) (strL "device-config") = true
        ∨ baseNameGo fp.1 = strL "vcpkg-configuration.json" then none
    else
      match fp.2 with
      | some tc =>
        if GetMRAMAddress tc ≠ [] ∨ GetCPU tc ≠ [] then some fp.1 else none
      | none => none)

/-- Case-insensitive substring test of a hint against a candidate filename. -/
def hintMatches (hint c : Str) : Bool :=
  containsSub (toLowerGo (baseNameGo c)) (toLowerGo hint)

/-- One hint-narrowing step: filter candidates by filename substring, keeping
the pre-hint set when the hint is empty or eliminates every candidate. -/
def applyHintFilter (cands : List Str) (hint : Str) : List Str :=
  if hint = [] then cands
  else
    if 0 < (cands.filter (fun c => hintMatches hint c)).length
    then cands.filter (fun c => hintMatches hint c)
    else cands

/-- The narrowing block of ResolveTargetConfig: hints apply only when more
than one candidate was found, core hint before project hint, the project hint
only when the core hint left more than one. -/
def narrowCandidates (cands : List Str) (coreHint projectHint : Str) : List Str :=
  if 1 < cands.length then
    if 1 < (applyHintFilter cands coreHint).length
    then applyHintFilter (applyHintFilter cands coreHint) projectHint
    else applyHintFilter cands coreHint
  else cands

/-- The auto-detect branch of ResolveTargetConfig, from candidate scan to
resolved path, interactive selection, or not-found error. -/
def ResolveTargetConfigAuto (files : List (Str × Option TargetConfig))
    (coreHint projectHint : Str) : Resolution :=
  if (autoCandidates files).length = 0 then .notFound
  else
    if (narrowCandidates (autoCandidates files) coreHint projectHint).length = 1
    then .resolved ((narrowCandidates (autoCandidates files) coreHint projectHint).headD [])
    else .ambiguous (narrowCandidates (autoCandidates files) coreHint projectHint)

/-- The spec's two example config files: a_cfg.json with cpu_id M55_HE and
b_cfg.json with cpu_id M55_HP, both parsing successfully. -/
def twoCfgFiles : List (Str × Option TargetConfig) :=
  [(strL "a_cfg.json",
    some [(strL "USER_APP", .obj [(strL "cpu_id", .str (strL "M55_HE"))])]),
   (strL "b_cfg.json",
    some [(strL "USER_APP", .obj [(strL "cpu_id", .str (strL "M55_HP"))])])]

/-- C3 counterexample: with candidate filenames a_cfg.json and b_cfg.json the
core hint HE is compared against the filenames, not the cpu_id contents, so
it narrows nothing and resolution reaches the interactive selection instead
of resolving to a_cfg.json. -/
theorem core_hint_cpu_id_counterexample :
    ResolveTargetConfigAuto twoCfgFiles (strL "HE") []
      = Resolution.ambiguous [strL "a_cfg.json", strL "b_cfg.json"]
    ∧ ResolveTargetConfigAuto twoCfgFiles (strL "HE") []
      ≠ Resolution.resolved (strL "a_cfg.json") := by
  constructor
  · decide
  · decide

/-- C3 amended: the core hint narrows by case-insensitive substring match on
candidate filenames; when it is non-empty and leaves exactly one candidate
filename, resolution returns that candidate without prompting. -/
theorem core_hint_filename_narrowing
    (files : List (Str × Option TargetConfig)) (coreHint x : Str)
    (hne : coreHint ≠ [])
    (hlen : 1 < (autoCandidates files).length)
    (hfilter : (autoCandidates files).filter (fun c => hintMatches coreHint c)
      = [x]) :
    ResolveTargetConfigAuto files coreHint [] = .resolved x := by
  have h0 : ¬ (autoCandidates files).length = 0 := by omega
  have hap : applyHintFilter (autoCandidates files) coreHint = [x] := by
    rw [applyHintFilter, if_neg hne, hfilter]
    simp
  have hnar : narrowCandidates (autoCandidates files) coreHint [] = [x] := by
    rw [narrowCandidates, if_pos hlen, hap]
    simp
  rw [ResolveTargetConfigAuto, if_neg h0, hnar]
  simp

/-- Witness for the amended C3: the same two configs under filenames that do
contain the core name resolve without prompting on hint HE. -/
theorem core_hint_filename_narrowing_witness :
    ResolveTargetConfigAuto
      [(strL "he_cfg.json",
        some [(strL "USER_APP", .obj [(strL "cpu_id", .str (strL "M55_HE"))])]),
       (strL "hp_cfg.json",
        some [(strL "USER_APP", .obj [(strL "cpu_id", .str (strL "M55_HP"))])])]
      (strL "HE") [] = Resolution.resolved (strL "he_cfg.json") :=
  core_hint_filename_narrowing _ (strL "HE") (strL "he_cfg.json")
    (by decide) (by decide) (by decide)

/-- C4: a hint that matches none of the candidate filenames leaves the
candidate set unchanged (for the core hint and the project hint alike, which
share the same narrowing step), so resolution falls back to the pre-hint
ambiguity instead of failing with not-found. -/
theorem hint_no_match_keeps_candidates :
    (∀ cands hint, (∀ c ∈ cands, hintMatches hint c = false) →
      applyHintFilter cands hint = cands)
    ∧ (∀ files coreHint, 1 < (autoCandidates files).length →
      (∀ c ∈ autoCandidates files, hintMatches coreHint c = false) →
      ResolveTargetConfigAuto files coreHint []
        = .ambiguous (autoCandidates files)) := by
  have hfilt : ∀ (cands : List Str) (hint : Str),
      (∀ c ∈ cands, hintMatches hint c = false) →
      applyHintFilter cands hint = cands := by
    intro cands hint h
    by_cases hh : hint = []
    · simp [applyHintFilter, hh]
    · have hnil : cands.filter (fun c => hintMatches hint c) = [] := by
        rw [List.filter_eq_nil_iff]
        intro a ha
        simp [h a ha]
      simp [applyHintFilter, hh, hnil]
  refine ⟨hfilt, ?_⟩
  intro files coreHint hlen hnone
  have h0 : ¬ (autoCandidates files).length = 0 := by omega
  have h1 : ¬ (autoCandidates files).length = 1 := by omega
  have hap := hfilt _ _ hnone
  have hproj : applyHintFilter (autoCandidates files) [] = autoCandidates files := by
    simp [applyHintFilter]
  have hnar : narrowCandidates (autoCandidates files) coreHint []
      = autoCandidates files := by
    rw [narrowCandidates, if_pos hlen, hap, if_pos hlen, hproj]
  rw [ResolveTargetConfigAuto, if_neg h0, hnar, if_neg h1]

/-- Witness for C4 at the spec's concrete two-candidate directory with the
unmatched hint XYZ. -/
theorem hint_no_match_keeps_candidates_witness :
    ResolveTargetConfigAuto twoCfgFiles (strL "XYZ") []
      = Resolution.ambiguous [strL "a_cfg.json", strL "b_cfg.json"] := by
  have h := hint_no_match_keeps_candidates.2 twoCfgFiles (strL "XYZ")
    (by decide) (by decide)
  rw [h]
  decide

/-! ### BuildStateStore (cmd/build.go saveBuildState and the flash-side load) -/

/-- saveBuildState (cmd/build.go): the sidecar contents written to
.alif_build_state, three newline-separated fields with no trailing newline. -/
def saveBuildState (bin toc target : Str) : Str :=
  bin ++ ('\n' :: (toc ++ ('\n' :: target)))

/-- Modelled from the spec: BuildStateStore.Load.  The reader of the
.alif_build_state sidecar is not among the provided sources (only the save
side is); section 4.5 of the spec has it read the newline-delimited file and
fail, as a validation error rather than a panic or partial read, when the
file is missing or has fewer than 2 lines, returning the binary path, the
TOC path, and the optional third target-core line. -/
def loadBuildState (file : Option Str) : Option (Str × Str × Str) :=
  match file with
  | none => none
  | some content =>
    if (splitChar '\n' content).length < 2 then none
    else some ((splitChar '\n' content).getD 0 [],
               (splitChar '\n' content).getD 1 [],
               (splitChar '\n' content).getD 2 [])

/-- C5: save followed by load returns exactly the saved triple, and load is a
validation failure on a missing file or a file with fewer than 2 lines. -/
theorem buildState_roundtrip (bin toc target : Str)
    (h1 : '\n' ∉ bin) (h2 : '\n' ∉ toc) (h3 : '\n' ∉ target) :
    loadBuildState (some (saveBuildState bin toc target))
      = some (bin, toc, target)
    ∧ loadBuildState none = none
    ∧ (∀ content, (splitChar '\n' content).length < 2 →
        loadBuildState (some content) = none) := by
  refine ⟨?_, rfl, ?_⟩
  · have hform : saveBuildState bin toc target
        = joinChar '\n' [bin, toc, target] := rfl
    have hsplit : splitChar '\n' (saveBuildState bin toc target)
        = [bin, toc, target] := by
      rw [hform]
      refine splitChar_joinChar '\n' _ (by simp) ?_
      intro l hl
      rw [List.mem_cons] at hl
      rcases hl with h | hl
      · rw [h]; exact h1
      · rw [List.mem_cons] at hl
        rcases hl with h | hl
        · rw [h]; exact h2
        · rw [List.mem_singleton] at hl
          rw [hl]; exact h3
    simp [loadBuildState, hsplit]
  · intro content hlt
    simp [loadBuildState, hlt]

/-- Witness for C5 at the spec's concrete triple and a one-line state file. -/
theorem buildState_roundtrip_witness :
    loadBuildState (some (saveBuildState (strL "a.bin") (strL "toc.bin")
      (strL "E7-HE"))) = some (strL "a.bin", strL "toc.bin", strL "E7-HE")
    ∧ loadBuildState none = none
    ∧ loadBuildState (some (strL "a.bin")) = none := by
  have h := buildState_roundtrip (strL "a.bin") (strL "toc.bin") (strL "E7-HE")
    (by decide) (by decide) (by decide)
  exact ⟨h.1, h.2.1, h.2.2 (strL "a.bin") (by decide)⟩

/-! ### Build command pipeline (cmd/build.go runBuild) -/

/-- Significant actions of the build command. -/
inductive BuildEv where
  | compile
  | saveState
  | signArtifact
  | exitFailure
deriving DecidableEq

/-- runBuild (cmd/build.go) with the sign flag semantics: compile, then, only
on the signing path, locate the binary, write the build-state sidecar, and
invoke the signer.  The sidecar is written before SignArtifact runs (the
in-source comment calls the save optimistic), so the write does not depend on
the signing outcome. -/
def runBuild (signFlag buildOk binFound signOk : Bool) : List BuildEv :=
  BuildEv.compile ::
    (if ¬ buildOk then [.exitFailure]
     else if ¬ signFlag then []
     else if ¬ binFound then [.exitFailure]
     else .saveState :: .signArtifact ::
       (if signOk then [] else [.exitFailure]))

/-- C6 counterexample: a build run whose signing step fails has already
written the build-state sidecar. -/
theorem build_state_saved_despite_sign_failure :
    runBuild true true true false
      = [BuildEv.compile, BuildEv.saveState, BuildEv.signArtifact,
         BuildEv.exitFailure]
    ∧ BuildEv.saveState ∈ runBuild true true true false := by
  constructor
  · decide
  · decide

/-- C6 amended: the sidecar is written only after a successful compile and a
located binary on the signing path, and it is written immediately before the
signing step, independently of the signing outcome — so a failed signing run
still leaves the freshly written state file. -/
theorem build_state_save_ordering (buildOk binFound signOk : Bool) :
    BuildEv.saveState ∉ runBuild false buildOk binFound signOk
    ∧ BuildEv.saveState ∉ runBuild true false binFound signOk
    ∧ BuildEv.saveState ∉ runBuild true true false signOk
    ∧ runBuild true true true signOk
      = BuildEv.compile :: BuildEv.saveState :: BuildEv.signArtifact ::
        (if signOk then [] else [BuildEv.exitFailure]) := by
  cases buildOk <;> cases binFound <;> cases signOk <;> decide

/-! ### ArtifactStager/Signer (internal/signer, part_004 SignArtifact) -/

/-- Present-file set of the host filesystem slice SignArtifact touches. -/
def fsAdd (fs : List Str) (p : Str) : List Str :=
  if p ∈ fs then fs else p :: fs

/-- Removal of a path from the present-file set. -/
def fsRemove (fs : List Str) (p : Str) : List Str :=
  fs.filter (fun q => q ≠ p)

/-- The fixed staging name of the config copy in the toolkit root. -/
def stagedCfgPath : Str := strL "toolkit/staged_config.json"

/-- The primary TOC file in the caller's build directory. -/
def buildDirToc : Str := strL "buildDir/AppTocPackage.bin"

/-- The artifact retrieval table of SignArtifact: sources in the toolkit,
destinations in the caller's build directory; binRel is the binary path
extracted from the config, whose staged copy is retrieved as alif-img.bin. -/
def signArtifactPairs (binRel : Str) : List (Str × Str) :=
  [(strL "toolkit/build/app-package-map.txt", strL "buildDir/app-package-map.txt"),
   (strL "toolkit/build/AppTocPackage.bin", buildDirToc),
   (strL "toolkit/build/AppTocPackage.bin.sign", strL "buildDir/AppTocPackage.bin.sign"),
   (strL "toolkit/build/AppTocPackage.bin.crt", strL "buildDir/AppTocPackage.bin.crt"),
   (strL "toolkit/" ++ binRel ++ strL ".sign", strL "buildDir/alif-img.bin.sign"),
   (strL "toolkit/" ++ binRel ++ strL ".crt", strL "buildDir/alif-img.bin.crt"),
   (strL "toolkit/" ++ binRel, strL "buildDir/alif-img.bin")]

/-- The retrieval loop: each artifact present at its source is moved to its
destination (rename, or copy plus delete across filesystems — the same net
effect on presence); a missing source is skipped without error. -/
def retrieveArtifacts (pairs : List (Str × Str)) (fs : List Str) : List Str :=
  pairs.foldl
    (fun acc a => if a.1 ∈ acc then fsAdd (fsRemove acc a.1) a.2 else acc) fs

/-- Outcomes of the stages of SignArtifact that can fail, and the files the
external signing tool leaves behind.  Host file copies are modelled as
succeeding, since every claim treated here concerns the logic after them. -/
structure SignEnv where
  configResolved : Bool
  configReadable : Bool
  binaryField : Option Str
  toolOk : Bool
  toolProduced : List Str

/-- SignArtifact (part_004): resolve the config, find the binary field, stage
the binary twice, stage the config under the fixed name (removed again on
every later exit path by the deferred cleanup), run app-gen-toc from the
toolkit root, and on success retrieve whatever artifacts exist, tolerating
absence of each.  Returns the reported TOC path and the final file set. -/
def SignArtifact (env : SignEnv) (fs : List Str) : Option Str × List Str :=
  if ¬ env.configResolved then (none, fs)
  else if ¬ env.configReadable then (none, fs)
  else
    match env.binaryField with
    | none => (none, fs)
    | some binRel =>
      let fs1 := fsAdd (fsAdd fs (strL "toolkit/" ++ binRel))
        (strL "toolkit/build/images/" ++ binRel)
      let fs2 := fsAdd fs1 stagedCfgPath
      let fs3 := env.toolProduced.foldl fsAdd fs2
      if ¬ env.toolOk then (none, fsRemove fs3 stagedCfgPath)
      else (some buildDirToc,
        fsRemove (retrieveArtifacts (signArtifactPairs binRel) fs3) stagedCfgPath)

theorem not_mem_fsRemove (fs : List Str) (p : Str) : p ∉ fsRemove fs p := by
  intro h
  rw [fsRemove, List.mem_filter] at h
  simp at h

/-- C8: on every exit path reached after the config has been staged under the
fixed name — the tool-failure path and the success path alike — the staged
copy is no longer present when SignArtifact returns. -/
theorem staged_config_removed_on_all_exits (env : SignEnv) (fs : List Str)
    (hres : env.configResolved = true) (hread : env.configReadable = true)
    (binRel : Str) (hbin : env.binaryField = some binRel) :
    stagedCfgPath ∉ (SignArtifact env fs).2 := by
  by_cases htool : env.toolOk = true
  · simp [SignArtifact, hres, hread, hbin, htool, not_mem_fsRemove]
  · simp only [Bool.not_eq_true] at htool
    simp [SignArtifact, hres, hread, hbin, htool, not_mem_fsRemove]

/-- Witness for C8 on the tool-failure exit path at a concrete environment. -/
theorem staged_config_removed_on_all_exits_witness :
    stagedCfgPath ∉
      (SignArtifact ⟨true, true, some (strL "alif-img.bin"), false, []⟩ []).2 :=
  staged_config_removed_on_all_exits
    ⟨true, true, some (strL "alif-img.bin"), false, []⟩ [] rfl rfl
    (strL "alif-img.bin") rfl

/-- C7 counterexample: with the tool exiting zero but producing no artifacts
at all, SignArtifact still succeeds, and the primary TOC file is absent from
the caller's build directory — success does not require its presence. -/
theorem sign_success_without_toc_counterexample :
    (SignArtifact ⟨true, true, some (strL "alif-img.bin"), true, []⟩ []).1
      = some buildDirToc
    ∧ buildDirToc ∉
        (SignArtifact ⟨true, true, some (strL "alif-img.bin"), true, []⟩ []).2 := by
  constructor
  · decide
  · decide

/-- C7 amended: success of SignArtifact after retrieval is determined only by
config resolution, config readability, presence of the binary field, and the
tool's exit status; the absence of any retrieved artifact, the primary TOC
file included, is tolerated. -/
theorem sign_success_iff_stages_ok (env : SignEnv) (fs : List Str) :
    ((SignArtifact env fs).1).isSome
      = (env.configResolved && env.configReadable
        && env.binaryField.isSome && env.toolOk) := by
  rcases env with ⟨cr, crd, bf, tok, tp⟩
  cases cr <;> cases crd <;> cases tok <;> cases bf <;>
    simp [SignArtifact]

/-! ### ContextResolver (internal/builder, part_009 ResolveContext) -/

/-- Go's strings.HasSuffix. -/
def hasSuffixL (suffix hay : Str) : Bool :=
  isPrefixL suffix.reverse hay.reverse

/-- The candidate filter of ResolveContext over the lines reported by the
external context listing: trim each line, drop empties, keep lines whose
target suffix (after a plus) matches the target filter and whose leading
segment matches the project filter; an empty filter matches everything. -/
def contextCandidates (lines : List Str) (targetFilter projectFilter : Str) :
    List Str :=
  (lines.map trimGo).filter (fun line =>
    !line.isEmpty
    && (targetFilter.isEmpty || hasSuffixL ('+' :: targetFilter) line)
    && (projectFilter.isEmpty || isPrefixL projectFilter line))

/-- Outcome of ResolveContext: an error message, a unique auto-selected
context, or an interactive selection over several candidates. -/
inductive CtxResult where
  | err (msg : Str)
  | ok (context : Str)
  | ambiguous (cands : List Str)
deriving DecidableEq

/-- ResolveContext after a successful context listing: zero candidates is an
error naming both filters and the solution file, one candidate is selected
automatically, several go to the interactive prompt. -/
def ResolveContext (lines : List Str) (targetFilter projectFilter sol : Str) :
    CtxResult :=
  if contextCandidates lines targetFilter projectFilter = [] then
    .err (strL "no matching build contexts found for target='" ++ targetFilter
      ++ strL "' project='" ++ projectFilter ++ strL "' in " ++ sol)
  else if (contextCandidates lines targetFilter projectFilter).length = 1 then
    .ok ((contextCandidates lines targetFilter projectFilter).headD [])
  else .ambiguous (contextCandidates lines targetFilter projectFilter)

/-- C9: whenever no listed context matches both filters, ResolveContext fails
and its error text contains both filter values. -/
theorem resolve_context_error_names_filters
    (lines : List Str) (tf pf sol : Str)
    (h : contextCandidates lines tf pf = []) :
    ∃ msg, ResolveContext lines tf pf sol = .err msg
      ∧ containsSub msg tf = true ∧ containsSub msg pf = true := by
  refine ⟨_, by rw [ResolveContext, if_pos h], ?_, ?_⟩
  · have hmid := containsSub_append_mid
      (strL "no matching build contexts found for target='") tf
      (strL "' project='" ++ pf ++ strL "' in " ++ sol)
    simpa [List.append_assoc] using hmid
  · have hmid := containsSub_append_mid
      (strL "no matching build contexts found for target='" ++ tf
        ++ strL "' project='") pf (strL "' in " ++ sol)
    simpa [List.append_assoc] using hmid

/-- Witness for C9 at a concrete listing and filters matching nothing. -/
theorem resolve_context_error_names_filters_witness :
    contextCandidates [strL "blinky.debug+E7-HE"] (strL "E7-HP") (strL "hello")
      = []
    ∧ ∃ msg, ResolveContext [strL "blinky.debug+E7-HE"] (strL "E7-HP")
        (strL "hello") (strL "sol.csolution.yml") = .err msg
      ∧ containsSub msg (strL "E7-HP") = true
      ∧ containsSub msg (strL "hello") = true :=
  ⟨by decide,
   resolve_context_error_names_filters [strL "blinky.debug+E7-HE"]
     (strL "E7-HP") (strL "hello") (strL "sol.csolution.yml") (by decide)⟩

/-! ### Flash command pipeline (cmd/flash.go runFlash, flasher.Flash) -/

/-- Significant actions of a flash invocation.  Events are recorded when the
corresponding external action is started; eraseInvoked, programInvoked and
jlinkInvoked are the only actions that write the device's persistent
memory. -/
inductive FlashEv where
  | portSelected
  | ispConfigUpdated
  | binStaged
  | toolkitSynced
  | deviceVerified
  | verifyFailedExit
  | tocGenerated
  | imageSigned
  | filesStaged
  | eraseInvoked
  | programInvoked
  | jlinkInvoked
  | fatalExit
deriving DecidableEq

/-- Events that write to the device's persistent memory. -/
def writesDevice : FlashEv → Bool
  | .eraseInvoked => true
  | .programInvoked => true
  | .jlinkInvoked => true
  | _ => false

/-- Modelled from the spec: targets.VerifyConnectedDevice is declared in the
internal targets package, which is not among the provided sources; per the
spec's device-verification step it queries the connected device's identity
and fails exactly when it differs from the resolved target identity. -/
def VerifyConnectedDevice (probedId targetId : Str) : Bool :=
  probedId = targetId

/-- External outcomes and flags of one flash invocation. -/
structure FlashEnv where
  method : Str
  noVerify : Bool
  probedId : Str
  targetId : Str
  contextOk : Bool
  cbuildFound : Bool
  portOk : Bool
  tocOk : Bool
  signOk : Bool
  updateIspOk : Bool
  doErase : Bool
  addrOk : Bool
  programOk : Bool

/-- Flasher.Flash (part_007): stage image and TOC files, update the ISP port
configuration and optionally erase (ISP only; a failed erase is a warning),
then program via app-write-mram or, for JTAG, via a generated J-Link script
after resolving addresses from the map file. -/
def flasherFlash (e : FlashEnv) : List FlashEv :=
  FlashEv.filesStaged ::
    (if e.method = strL "ISP" then
      if ¬ e.updateIspOk then [.fatalExit]
      else .ispConfigUpdated ::
        ((if e.doErase then [.eraseInvoked] else [])
          ++ [.programInvoked]
          ++ (if e.programOk then [] else [.fatalExit]))
    else
      if ¬ e.addrOk then [.fatalExit]
      else .jlinkInvoked :: (if e.programOk then [] else [.fatalExit]))

/-- The binary-file mode of runFlash (cmd/flash.go): select a port, update
the ISP configuration, stage the binary into the toolkit, sync the toolkit
device identity, verify the connected hardware (ISP method without
no-verify; a mismatch exits before anything else runs), generate the TOC,
and program via app-write-mram. -/
def runFlashBinary (e : FlashEnv) : List FlashEv :=
  if ¬ e.portOk then [.fatalExit]
  else .portSelected ::
    ((if e.method = strL "ISP" then [.ispConfigUpdated] else [])
      ++ [.binStaged, .toolkitSynced]
      ++ (if e.method = strL "ISP" ∧ e.noVerify = false then
            if VerifyConnectedDevice e.probedId e.targetId then
              .deviceVerified ::
                (if ¬ e.tocOk then [.fatalExit]
                 else .tocGenerated :: .programInvoked ::
                   (if e.programOk then [] else [.fatalExit]))
            else [.verifyFailedExit]
          else
            if ¬ e.tocOk then [.fatalExit]
            else .tocGenerated :: .programInvoked ::
              (if e.programOk then [] else [.fatalExit])))

/-- The project mode of runFlash (cmd/flash.go): resolve the build context
and its cbuild file, select a port, update the ISP configuration, sync the
toolkit device identity, verify the connected hardware (ISP method without
no-verify; a mismatch exits before signing and flashing), sign the artifact,
and hand over to Flasher.Flash. -/
def runFlashProject (e : FlashEnv) : List FlashEv :=
  if ¬ e.contextOk then [.fatalExit]
  else if ¬ e.cbuildFound then [.fatalExit]
  else if ¬ e.portOk then [.fatalExit]
  else .portSelected ::
    ((if e.method = strL "ISP" then [.ispConfigUpdated] else [])
      ++ [.toolkitSynced]
      ++ (if e.method = strL "ISP" ∧ e.noVerify = false then
            if VerifyConnectedDevice e.probedId e.targetId then
              .deviceVerified :: .imageSigned ::
                (if ¬ e.signOk then [.fatalExit] else flasherFlash e)
            else [.verifyFailedExit]
          else .imageSigned ::
            (if ¬ e.signOk then [.fatalExit] else flasherFlash e)))

/-- Whether a trace ends in an aborting exit. -/
def abortsTrace (t : List FlashEv) : Prop :=
  t.getLast? = some FlashEv.fatalExit ∨ t.getLast? = some FlashEv.verifyFailedExit

/-- C1: with the ISP method and verification enabled, an identity mismatch
between the probed device and the resolved target makes both flash modes
abort with a fatal exit, and neither trace contains any erase or program
action that writes the device's persistent memory. -/
theorem flash_identity_gate (e : FlashEnv)
    (hm : e.method = strL "ISP") (hv : e.noVerify = false)
    (hmis : e.probedId ≠ e.targetId) :
    (∀ ev ∈ runFlashBinary e, writesDevice ev = false)
    ∧ (∀ ev ∈ runFlashProject e, writesDevice ev = false)
    ∧ abortsTrace (runFlashBinary e)
    ∧ abortsTrace (runFlashProject e) := by
  have hver : VerifyConnectedDevice e.probedId e.targetId = false := by
    simp [VerifyConnectedDevice, hmis]
  have hbin : runFlashBinary e =
      if e.portOk = true then
        [FlashEv.portSelected, FlashEv.ispConfigUpdated, FlashEv.binStaged,
         FlashEv.toolkitSynced, FlashEv.verifyFailedExit]
      else [FlashEv.fatalExit] := by
    by_cases hp : e.portOk = true
    · simp [runFlashBinary, hm, hv, hver, hp]
    · simp only [Bool.not_eq_true] at hp
      simp [runFlashBinary, hp]
  have hproj : runFlashProject e =
      if e.contextOk = true ∧ e.cbuildFound = true ∧ e.portOk = true then
        [FlashEv.portSelected, FlashEv.ispConfigUpdated,
         FlashEv.toolkitSynced, FlashEv.verifyFailedExit]
      else [FlashEv.fatalExit] := by
    by_cases hc : e.contextOk = true
    · by_cases hcb : e.cbuildFound = true
      · by_cases hp : e.portOk = true
        · simp [runFlashProject, hm, hv, hver, hc, hcb, hp]
        · simp only [Bool.not_eq_true] at hp
          simp [runFlashProject, hc, hcb, hp]
      · simp only [Bool.not_eq_true] at hcb
        simp [runFlashProject, hc, hcb]
    · simp only [Bool.not_eq_true] at hc
      simp [runFlashProject, hc]
  refine ⟨?_, ?_, ?_, ?_⟩
  · rw [hbin]
    split
    · decide
    · decide
  · rw [hproj]
    split
    · decide
    · decide
  · rw [hbin]
    unfold abortsTrace
    split
    · decide
    · decide
  · rw [hproj]
    unfold abortsTrace
    split
    · decide
    · decide

/-- A concrete mismatch environment: ISP method, verification enabled, the
probed part differing from the resolved target part, all other stages able
to succeed. -/
def mismatchEnv : FlashEnv :=
  ⟨strL "ISP", false, strL "AE722F80F55D5LS:M55_HE",
   strL "AE512F80F55D5LS:M55_HP", true, true, true, true, true, true, true,
   true, true⟩

/-- Witness for C1 at the concrete mismatch environment. -/
theorem flash_identity_gate_witness :
    (strL "AE722F80F55D5LS:M55_HE" ≠ strL "AE512F80F55D5LS:M55_HP")
    ∧ (∀ ev ∈ runFlashBinary mismatchEnv, writesDevice ev = false)
    ∧ (∀ ev ∈ runFlashProject mismatchEnv, writesDevice ev = false)
    ∧ abortsTrace (runFlashProject mismatchEnv) :=
  ⟨by decide,
   (flash_identity_gate mismatchEnv rfl rfl (by decide)).1,
   (flash_identity_gate mismatchEnv rfl rfl (by decide)).2.1,
   (flash_identity_gate mismatchEnv rfl rfl (by decide)).2.2.2⟩

/-- Witness for the amended C6 at concrete flags with a failing signing. -/
theorem build_state_save_ordering_witness :
    runBuild true true true false
      = BuildEv.compile :: BuildEv.saveState :: BuildEv.signArtifact ::
        [BuildEv.exitFailure] := by
  have h := (build_state_save_ordering true true false).2.2.2
  simpa using h

/-- Witness for the amended C7: with every stage succeeding and no artifacts
produced, the call reports success. -/
theorem sign_success_iff_stages_ok_witness :
    ((SignArtifact ⟨true, true, some (strL "alif-img.bin"), true, []⟩ []).1).isSome
      = true := by
  have h := sign_success_iff_stages_ok
    ⟨true, true, some (strL "alif-img.bin"), true, []⟩ []
  simpa using h
